import Mathlib

/-!
Verification development for the channel-selection subsystem of prismcast
(src/browser/channelSelection.ts and src/browser/tuning/tileClick.ts).

The TypeScript sources are shallowly embedded as executable Lean functions:
pure string helpers become functions on `String` and `List Char`; the
effectful coordinator and the tile strategy become pure functions over an
explicit page model (oracles for the DOM reads the code performs) that also
return the trace of externally visible effects. Numeric viewport
coordinates are modelled with `ℚ`.
-/

namespace Prismcast

/-! ### Generic string helpers

JavaScript `String.prototype.includes`, `startsWith` and `endsWith` are
modelled on `List Char`. `segAt ns l` is true when `ns` is an initial
segment of `l`; `hasSeg ns l` when `ns` occurs contiguously anywhere in
`l`. -/

/-- Is `ns` an initial segment of `l`? Models JS `startsWith`. -/
def segAt : List Char → List Char → Bool
  | [], _ => true
  | _ :: _, [] => false
  | n :: ns, c :: cs => n == c && segAt ns cs

/-- Does `ns` occur contiguously inside `l`? Models JS `includes`. -/
def hasSeg : List Char → List Char → Bool
  | ns, [] => ns.isEmpty
  | ns, hay@(_ :: cs) => segAt ns hay || hasSeg ns cs

/-- String wrapper for `hasSeg`: does `needle` occur inside `hay`? -/
def hasSegStr (needle hay : String) : Bool :=
  hasSeg needle.data hay.data

/-- String wrapper for `segAt` on reversed data: does `s` end with `pat`?
Models JS `String.prototype.endsWith`. -/
def strEndsWith (pat s : String) : Bool :=
  segAt pat.data.reverse s.data.reverse

theorem segAt_iff_append (ns : List Char) : ∀ l : List Char,
    segAt ns l = true ↔ ∃ t, l = ns ++ t := by
  induction ns with
  | nil =>
    intro l
    simp [segAt]
  | cons n ns ih =>
    intro l
    cases l with
    | nil =>
      simp [segAt]
    | cons c cs =>
      simp only [segAt, Bool.and_eq_true, beq_iff_eq, ih cs, List.cons_append,
        List.cons.injEq]
      constructor
      · rintro ⟨rfl, t, rfl⟩
        exact ⟨t, rfl, rfl⟩
      · rintro ⟨t, rfl, rfl⟩
        exact ⟨rfl, t, rfl⟩

/-! ### JS whitespace and lowercasing

`isJsWhitespace` is the character class matched by the JS regex `\s` (and
removed by `String.prototype.trim`): ASCII whitespace controls, space,
NBSP, Ogham space mark, the U+2000–U+200A range, line/paragraph
separators, narrow NBSP, medium mathematical space, ideographic space and
the BOM. Lowercasing is `Char.toLower`, which agrees with JS
`toLowerCase` on every character these sources compare (basic latin). -/

/-- The JS `\s` character class, which `trim` and `replace` use in
`normalizeChannelName`. -/
def isJsWhitespace (c : Char) : Bool :=
  c.toNat == 0x09 || c.toNat == 0x0a || c.toNat == 0x0b || c.toNat == 0x0c ||
  c.toNat == 0x0d || c.toNat == 0x20 || c.toNat == 0xa0 || c.toNat == 0x1680 ||
  (0x2000 ≤ c.toNat && c.toNat ≤ 0x200a) || c.toNat == 0x2028 ||
  c.toNat == 0x2029 || c.toNat == 0x202f || c.toNat == 0x205f ||
  c.toNat == 0x3000 || c.toNat == 0xfeff

theorem char_toNat_ofNat (n : Nat) (h : n.isValidChar) :
    (Char.ofNat n).toNat = n := by
  rw [Char.ofNat, dif_pos h]
  rfl

theorem toLower_toNat_of_upper {c : Char} (h : 65 ≤ c.toNat ∧ c.toNat ≤ 90) :
    (Char.toLower c).toNat = c.toNat + 32 := by
  have hv : (c.toNat + 32).isValidChar := by
    exact Or.inl (by omega)
  simp only [Char.toLower, if_pos h]
  exact char_toNat_ofNat _ hv

theorem toLower_eq_of_not_upper {c : Char} (h : ¬(65 ≤ c.toNat ∧ c.toNat ≤ 90)) :
    Char.toLower c = c := by
  simp only [Char.toLower, if_neg h]

theorem toLower_toLower (c : Char) : Char.toLower (Char.toLower c) = Char.toLower c := by
  by_cases h : 65 ≤ c.toNat ∧ c.toNat ≤ 90
  · have h1 := toLower_toNat_of_upper h
    have h2 : ¬(65 ≤ (Char.toLower c).toNat ∧ (Char.toLower c).toNat ≤ 90) := by
      omega
    exact toLower_eq_of_not_upper h2
  · rw [toLower_eq_of_not_upper h]
    exact toLower_eq_of_not_upper h

theorem isJsWhitespace_toLower (c : Char) :
    isJsWhitespace (Char.toLower c) = isJsWhitespace c := by
  by_cases h : 65 ≤ c.toNat ∧ c.toNat ≤ 90
  · have h1 := toLower_toNat_of_upper h
    simp only [isJsWhitespace, h1]
    have hfalse : ∀ m : Nat, 65 ≤ m → m ≤ 122 →
        (m == 0x09 || m == 0x0a || m == 0x0b || m == 0x0c || m == 0x0d ||
         m == 0x20 || m == 0xa0 || m == 0x1680 ||
         (0x2000 ≤ m && m ≤ 0x200a) || m == 0x2028 || m == 0x2029 ||
         m == 0x202f || m == 0x205f || m == 0x3000 || m == 0xfeff) = false := by
      intro m hm1 hm2
      simp only [Bool.or_eq_false_iff, beq_eq_false_iff_ne, ne_eq,
        Bool.and_eq_false_iff, decide_eq_false_iff_not, not_le]
      omega
    rw [hfalse _ (by omega) (by omega), hfalse _ (by omega) (by omega)]
  · rw [toLower_eq_of_not_upper h]

theorem toLower_space : Char.toLower ' ' = ' ' := by
  decide

/-! ### normalizeChannelName (channelSelection.ts lines 75–78)

`name.trim().replace(/\s+/g, " ").toLowerCase()`: trim leading/trailing
JS whitespace, collapse each maximal run of JS whitespace to one ASCII
space, then lowercase. -/

/-- Drop the trailing run of JS whitespace. Together with
`List.dropWhile` at the front this models `String.prototype.trim`
(which strips the same character class as `\s`). -/
def dropTrailWS : List Char → List Char
  | [] => []
  | c :: cs =>
    match dropTrailWS cs with
    | [] => if isJsWhitespace c then [] else [c]
    | rest => c :: rest

/-- Models `String.prototype.trim`: remove leading and trailing JS
whitespace. -/
def trimList (s : List Char) : List Char :=
  dropTrailWS (s.dropWhile isJsWhitespace)

/-- Models `replace(/\s+/g, " ")`: each maximal run of JS whitespace
becomes one ASCII space. The flag records whether the previous character
was inside a whitespace run. -/
def collapseWS : Bool → List Char → List Char
  | _, [] => []
  | inRun, c :: cs =>
    if isJsWhitespace c then
      if inRun then collapseWS true cs else ' ' :: collapseWS true cs
    else
      c :: collapseWS false cs

/-- The character-list form of `normalizeChannelName`: trim, collapse
whitespace runs, lowercase. -/
def normalizeData (l : List Char) : List Char :=
  (collapseWS false (trimList l)).map Char.toLower

/-- Embedding of `normalizeChannelName` (channelSelection.ts lines
75–78): `name.trim().replace(/\s+/g, " ").toLowerCase()`. -/
def normalizeChannelName (name : String) : String :=
  ⟨normalizeData name.data⟩

theorem collapseWS_nil (b : Bool) : collapseWS b [] = [] := rfl

theorem collapseWS_cons_ws_true {c : Char} (h : isJsWhitespace c = true)
    (cs : List Char) : collapseWS true (c :: cs) = collapseWS true cs := by
  simp [collapseWS, h]

theorem collapseWS_cons_ws_false {c : Char} (h : isJsWhitespace c = true)
    (cs : List Char) : collapseWS false (c :: cs) = ' ' :: collapseWS true cs := by
  simp [collapseWS, h]

theorem collapseWS_cons_nonws {c : Char} (h : isJsWhitespace c = false)
    (b : Bool) (cs : List Char) :
    collapseWS b (c :: cs) = c :: collapseWS false cs := by
  simp [collapseWS, h]

/-! #### Shape predicates used to prove that normalization is idempotent -/

/-- The list does not start with JS whitespace. -/
def noLeadWS : List Char → Bool
  | [] => true
  | c :: _ => !isJsWhitespace c

/-- The list does not end with JS whitespace. -/
def noTrailWS : List Char → Bool
  | [] => true
  | [c] => !isJsWhitespace c
  | _ :: d :: cs => noTrailWS (d :: cs)

/-- Every JS-whitespace character in the list is an ASCII space that is
immediately followed by a non-whitespace character. This is the shape
`collapseWS` produces on input without trailing whitespace. -/
def isCollapsed : List Char → Bool
  | [] => true
  | [c] => !isJsWhitespace c
  | c :: d :: cs =>
    (!isJsWhitespace c || (c == ' ' && !isJsWhitespace d)) && isCollapsed (d :: cs)

theorem noTrailWS_dropTrailWS : ∀ s : List Char, noTrailWS (dropTrailWS s) = true := by
  intro s
  induction s with
  | nil => rfl
  | cons c cs ih =>
    rw [dropTrailWS]
    cases h : dropTrailWS cs with
    | nil =>
      by_cases hc : isJsWhitespace c = true
      · simp [hc, noTrailWS]
      · simp only [Bool.not_eq_true] at hc
        simp [hc, noTrailWS]
    | cons r rs =>
      rw [h] at ih
      simpa [noTrailWS] using ih

theorem noLeadWS_dropTrailWS {s : List Char} (h : noLeadWS s = true) :
    noLeadWS (dropTrailWS s) = true := by
  cases s with
  | nil => rfl
  | cons c cs =>
    rw [dropTrailWS]
    cases hd : dropTrailWS cs with
    | nil =>
      simp only [noLeadWS, Bool.not_eq_true'] at h
      simp [h, noLeadWS]
    | cons r rs => simpa [noLeadWS] using h

theorem noLeadWS_dropWhile : ∀ s : List Char,
    noLeadWS (s.dropWhile isJsWhitespace) = true := by
  intro s
  induction s with
  | nil => rfl
  | cons c cs ih =>
    by_cases hc : isJsWhitespace c = true
    · simpa [List.dropWhile, hc] using ih
    · simp only [Bool.not_eq_true] at hc
      simp [List.dropWhile, hc, noLeadWS]

theorem noLeadWS_trimList (s : List Char) : noLeadWS (trimList s) = true :=
  noLeadWS_dropTrailWS (noLeadWS_dropWhile s)

theorem noTrailWS_trimList (s : List Char) : noTrailWS (trimList s) = true :=
  noTrailWS_dropTrailWS _

theorem collapseWS_true_shape : ∀ s : List Char, noTrailWS s = true → s ≠ [] →
    noLeadWS (collapseWS true s) = true ∧ collapseWS true s ≠ [] := by
  intro s
  induction s with
  | nil => intro _ hne; exact absurd rfl hne
  | cons c cs ih =>
    intro hnt _
    cases cs with
    | nil =>
      simp only [noTrailWS, Bool.not_eq_true'] at hnt
      rw [collapseWS_cons_nonws hnt]
      exact ⟨by simp [noLeadWS, hnt], by simp⟩
    | cons d cs' =>
      have hnt' : noTrailWS (d :: cs') = true := hnt
      by_cases hc : isJsWhitespace c = true
      · rw [collapseWS_cons_ws_true hc]
        exact ih hnt' (by simp)
      · simp only [Bool.not_eq_true] at hc
        rw [collapseWS_cons_nonws hc]
        exact ⟨by simp [noLeadWS, hc], by simp⟩

theorem isCollapsed_collapseWS : ∀ (s : List Char) (b : Bool),
    noTrailWS s = true → isCollapsed (collapseWS b s) = true := by
  intro s
  induction s with
  | nil => intro b _; rfl
  | cons c cs ih =>
    intro b hnt
    by_cases hc : isJsWhitespace c = true
    · cases cs with
      | nil => simp [noTrailWS, hc] at hnt
      | cons d cs' =>
        have hnt' : noTrailWS (d :: cs') = true := hnt
        cases b with
        | true =>
          rw [collapseWS_cons_ws_true hc]
          exact ih true hnt'
        | false =>
          rw [collapseWS_cons_ws_false hc]
          obtain ⟨hlead, hne⟩ := collapseWS_true_shape (d :: cs') hnt' (by simp)
          have hColl : isCollapsed (collapseWS true (d :: cs')) = true := ih true hnt'
          cases heq : collapseWS true (d :: cs') with
          | nil => exact absurd heq hne
          | cons e X =>
            rw [heq] at hColl hlead
            simp only [noLeadWS, Bool.not_eq_true'] at hlead
            simp [isCollapsed, hlead, hColl]
    · simp only [Bool.not_eq_true] at hc
      rw [collapseWS_cons_nonws hc]
      cases cs with
      | nil => simp [collapseWS_nil, isCollapsed, hc]
      | cons d cs' =>
        have hnt' : noTrailWS (d :: cs') = true := hnt
        have hColl := ih false hnt'
        cases heq : collapseWS false (d :: cs') with
        | nil => simp [heq, isCollapsed, hc]
        | cons e X =>
          rw [heq] at hColl
          simp [isCollapsed, hc, hColl]

theorem noTrailWS_of_isCollapsed : ∀ s : List Char,
    isCollapsed s = true → noTrailWS s = true := by
  intro s
  induction s with
  | nil => intro _; rfl
  | cons c cs ih =>
    intro h
    cases cs with
    | nil => exact h
    | cons d cs' =>
      simp only [isCollapsed, Bool.and_eq_true] at h
      exact ih h.2

theorem noLeadWS_collapseWS {s : List Char} (h : noLeadWS s = true) :
    noLeadWS (collapseWS false s) = true := by
  cases s with
  | nil => rfl
  | cons c cs =>
    simp only [noLeadWS, Bool.not_eq_true'] at h
    simp [collapseWS, h, noLeadWS]

theorem dropWhile_of_noLeadWS {s : List Char} (h : noLeadWS s = true) :
    s.dropWhile isJsWhitespace = s := by
  cases s with
  | nil => rfl
  | cons c cs =>
    simp only [noLeadWS, Bool.not_eq_true'] at h
    simp [List.dropWhile, h]

theorem dropTrailWS_of_noTrailWS : ∀ s : List Char,
    noTrailWS s = true → dropTrailWS s = s := by
  intro s
  induction s with
  | nil => intro _; rfl
  | cons c cs ih =>
    intro h
    cases cs with
    | nil =>
      simp only [noTrailWS, Bool.not_eq_true'] at h
      simp [dropTrailWS, h]
    | cons d cs' =>
      have h' : noTrailWS (d :: cs') = true := h
      rw [dropTrailWS, ih h']

theorem trimList_fix {s : List Char} (h1 : noLeadWS s = true)
    (h2 : noTrailWS s = true) : trimList s = s := by
  rw [trimList, dropWhile_of_noLeadWS h1, dropTrailWS_of_noTrailWS s h2]

theorem collapseWS_fix_aux : ∀ (n : Nat) (s : List Char), s.length ≤ n →
    isCollapsed s = true → noLeadWS s = true → collapseWS false s = s := by
  intro n
  induction n with
  | zero =>
    intro s hs _ _
    have hnil : s = [] := List.length_eq_zero.mp (Nat.le_zero.mp hs)
    subst hnil
    rfl
  | succ n ih =>
    intro s hs hc hl
    cases s with
    | nil => rfl
    | cons c cs =>
      simp only [noLeadWS, Bool.not_eq_true'] at hl
      rw [collapseWS_cons_nonws hl]
      cases cs with
      | nil => rfl
      | cons d cs' =>
        have hc' : isCollapsed (d :: cs') = true := by
          simp only [isCollapsed, Bool.and_eq_true] at hc
          exact hc.2
        by_cases hd : isJsWhitespace d = true
        · cases cs' with
          | nil => simp [isCollapsed, hd] at hc'
          | cons e cs'' =>
            have hcond : d = ' ' ∧ isJsWhitespace e = false := by
              simp only [isCollapsed, Bool.and_eq_true, Bool.or_eq_true,
                beq_iff_eq, Bool.not_eq_true'] at hc'
              rcases hc'.1 with h1 | h1
              · simp [hd] at h1
              · exact h1
            obtain ⟨hdsp, hews⟩ := hcond
            have hce : isCollapsed (e :: cs'') = true := by
              simp only [isCollapsed, Bool.and_eq_true] at hc'
              exact hc'.2
            have hrec : collapseWS false (e :: cs'') = e :: cs'' := by
              refine ih (e :: cs'') ?_ hce (by simp [noLeadWS, hews])
              simp only [List.length_cons] at hs ⊢
              omega
            rw [collapseWS_cons_ws_false hd, collapseWS_cons_nonws hews]
            rw [collapseWS_cons_nonws hews] at hrec
            simp only [List.cons.injEq] at hrec
            rw [hrec.2, hdsp]
        · simp only [Bool.not_eq_true] at hd
          have hrec : collapseWS false (d :: cs') = d :: cs' := by
            refine ih (d :: cs') ?_ hc' (by simp [noLeadWS, hd])
            simp only [List.length_cons] at hs ⊢
            omega
          rw [hrec]

theorem collapseWS_fix {s : List Char} (hc : isCollapsed s = true)
    (hl : noLeadWS s = true) : collapseWS false s = s :=
  collapseWS_fix_aux s.length s (Nat.le_refl _) hc hl

/-! #### Lowercasing commutes with trimming and collapsing -/

theorem dropWhile_map_toLower : ∀ s : List Char,
    (s.map Char.toLower).dropWhile isJsWhitespace =
      (s.dropWhile isJsWhitespace).map Char.toLower := by
  intro s
  induction s with
  | nil => rfl
  | cons c cs ih =>
    by_cases hc : isJsWhitespace c = true
    · simp [List.dropWhile, isJsWhitespace_toLower, hc, ih]
    · simp only [Bool.not_eq_true] at hc
      simp [List.dropWhile, isJsWhitespace_toLower, hc]

theorem dropTrailWS_map_toLower : ∀ s : List Char,
    dropTrailWS (s.map Char.toLower) = (dropTrailWS s).map Char.toLower := by
  intro s
  induction s with
  | nil => rfl
  | cons c cs ih =>
    simp only [List.map_cons, dropTrailWS, ih]
    cases h : dropTrailWS cs with
    | nil =>
      simp only [h, List.map_nil, isJsWhitespace_toLower]
      by_cases hc : isJsWhitespace c = true
      · simp [hc]
      · simp only [Bool.not_eq_true] at hc
        simp [hc]
    | cons r rs => simp [h]

theorem trimList_map_toLower (s : List Char) :
    trimList (s.map Char.toLower) = (trimList s).map Char.toLower := by
  rw [trimList, trimList, dropWhile_map_toLower, dropTrailWS_map_toLower]

theorem collapseWS_map_toLower : ∀ (s : List Char) (b : Bool),
    collapseWS b (s.map Char.toLower) = (collapseWS b s).map Char.toLower := by
  intro s
  induction s with
  | nil => intro b; rfl
  | cons c cs ih =>
    intro b
    by_cases hc : isJsWhitespace c = true
    · cases b with
      | true => simp [collapseWS, isJsWhitespace_toLower, hc, ih]
      | false => simp [collapseWS, isJsWhitespace_toLower, hc, ih, toLower_space]
    · simp only [Bool.not_eq_true] at hc
      simp [collapseWS, isJsWhitespace_toLower, hc, ih]

theorem map_toLower_idem : ∀ s : List Char,
    (s.map Char.toLower).map Char.toLower = s.map Char.toLower := by
  intro s
  induction s with
  | nil => rfl
  | cons c cs ih => simp [toLower_toLower, ih]

theorem normalizeData_idem (l : List Char) :
    normalizeData (normalizeData l) = normalizeData l := by
  have hnt : noTrailWS (trimList l) = true := noTrailWS_trimList l
  have hcoll : isCollapsed (collapseWS false (trimList l)) = true :=
    isCollapsed_collapseWS _ false hnt
  have hlead : noLeadWS (collapseWS false (trimList l)) = true :=
    noLeadWS_collapseWS (noLeadWS_trimList l)
  have htrail : noTrailWS (collapseWS false (trimList l)) = true :=
    noTrailWS_of_isCollapsed _ hcoll
  rw [normalizeData, normalizeData, trimList_map_toLower, collapseWS_map_toLower,
    trimList_fix hlead htrail, collapseWS_fix hcoll hlead, map_toLower_idem]

theorem normalizeChannelName_idem_aux (s : String) :
    normalizeChannelName (normalizeChannelName s) = normalizeChannelName s :=
  congrArg String.mk (normalizeData_idem s.data)

/-! ### logAvailableChannels (channelSelection.ts lines 92–160)

The coordinator diagnostic that lists discovered channel names when
selection fails. Only the computation of the logged list is modelled
(`none` = the function produces no log line); `channelName`, `guideUrl`
and `providerName` feed solely into the text of the log message. The
`CHANNELS` preset table lives outside the sampled sources, so it is a
parameter: a list of (key, channelSelector) pairs. -/

/-- Models JS `toLowerCase` (exact on the basic-latin characters these
sources compare). -/
def lowerStr (s : String) : String :=
  ⟨s.data.map Char.toLower⟩

/-- JS regex line terminators, which `.` does not match. -/
def isJsLineTerm (c : Char) : Bool :=
  c.toNat == 0x0a || c.toNat == 0x0d || c.toNat == 0x2028 || c.toNat == 0x2029

/-- Does the text after a space complete a match of `/ \(.*\)$/`, i.e. is
it an open parenthesis, then non-line-terminator characters, then a
closing parenthesis at the very end? -/
def parenTailMatch : List Char → Bool
  | c :: rest =>
    c == '(' && !rest.isEmpty && rest.dropLast.all (fun d => !isJsLineTerm d) &&
      rest.getLast? == some ')'
  | [] => false

/-- The prefix of `l` before the leftmost match of `/ \(.*\)$/`, when the
regex matches. -/
def stripParenAux : List Char → Option (List Char)
  | [] => none
  | c :: cs =>
    if c == ' ' && parenTailMatch cs then some []
    else (stripParenAux cs).map (c :: ·)

/-- Models `lower.replace(/ \(.*\)$/, "")` (channelSelection.ts line
133): remove a trailing parenthetical together with the space before
it. -/
def stripParen (s : String) : String :=
  match stripParenAux s.data with
  | some pre => ⟨pre⟩
  | none => s

/-- ASCII digit test, modelling `charCodeAt(i) >= 48 && charCodeAt(i) <= 57`. -/
def isAsciiDigit (c : Char) : Bool :=
  48 ≤ c.toNat && c.toNat ≤ 57

/-- Is the character at index `i` an ASCII digit? Out-of-range indices
yield `false`, as NaN comparisons do in JS. -/
def digitAt (l : List Char) (i : Nat) : Bool :=
  match l[i]? with
  | some c => isAsciiDigit c
  | none => false

/-- The coverage test of `logAvailableChannels` (lines 130–140): a
discovered name is covered by a known (pre-lowercased) selector when its
lowercase form, with any trailing parenthetical stripped, equals the
selector, or when its lowercase form starts with the selector, a single
space, and an ASCII digit. -/
def coveredBy (knownSelectors : List String) (name : String) : Bool :=
  let lower := lowerStr name
  let stripped := stripParen lower
  knownSelectors.any fun sel =>
    stripped == sel ||
      (segAt (sel.data ++ [' ']) lower.data &&
        decide (sel.length + 1 < lower.length) && digitAt lower.data (sel.length + 1))

/-- The known-selector list of `logAvailableChannels` (lines 114–126):
channelSelector values of preset channels whose key ends with the preset
suffix, lowercased, dropping absent/empty selectors, then the lowercased
additional known names. -/
def knownSelectorsOf (presetSuffix : String) (channels : List (String × Option String))
    (additionalKnownNames : List String) : List String :=
  ((channels.filter fun kv => strEndsWith presetSuffix kv.1).map
      fun kv => lowerStr (kv.2.getD "")).filter (fun s => decide (0 < s.length))
    ++ additionalKnownNames.map lowerStr

/-- The filtered channel list (line 130): discovered names not covered by
any known selector. -/
def filteredChannels (knownSelectors : List String) (availableChannels : List String) :
    List String :=
  availableChannels.filter fun name => !coveredBy knownSelectors name

/-- Embedding of `logAvailableChannels` (lines 92–160), returning the
list of names the single log line enumerates, or `none` when no log line
is produced. A missing or empty `presetSuffix` (falsy in JS) selects the
unfiltered mode. -/
def logAvailableChannels (availableChannels : List String) (presetSuffix : Option String)
    (channels : List (String × Option String)) (additionalKnownNames : List String) :
    Option (List String) :=
  if availableChannels.isEmpty then none
  else
    let filtered :=
      match presetSuffix with
      | some suf =>
        if suf.isEmpty then availableChannels
        else filteredChannels (knownSelectorsOf suf channels additionalKnownNames)
          availableChannels
      | none => availableChannels
    if filtered.isEmpty then none else some filtered

theorem prefixDigit_iff (sel lower : List Char) :
    (segAt (sel ++ [' ']) lower && decide (sel.length + 1 < lower.length) &&
      digitAt lower (sel.length + 1)) = true ↔
      ∃ (d : Char) (rest : List Char),
        lower = sel ++ ' ' :: d :: rest ∧ isAsciiDigit d = true := by
  constructor
  · intro h
    simp only [Bool.and_eq_true, decide_eq_true_eq] at h
    obtain ⟨⟨hseg, hlen⟩, hdig⟩ := h
    obtain ⟨t, ht⟩ := (segAt_iff_append _ _).mp hseg
    subst ht
    simp only [List.length_append, List.length_cons, List.length_nil] at hlen
    cases t with
    | nil =>
      simp only [List.length_nil] at hlen
      omega
    | cons d rest =>
      refine ⟨d, rest, by simp, ?_⟩
      rw [digitAt] at hdig
      have hidx : (sel ++ [' '] ++ d :: rest)[sel.length + 1]? = some d := by
        rw [List.getElem?_append_right (by simp)]
        simp
      rw [hidx] at hdig
      exact hdig
  · rintro ⟨d, rest, rfl, hd⟩
    have hshape : sel ++ ' ' :: d :: rest = (sel ++ [' ']) ++ d :: rest := by
      simp
    simp only [Bool.and_eq_true, decide_eq_true_eq]
    refine ⟨⟨(segAt_iff_append _ _).mpr ⟨d :: rest, hshape⟩, by simp⟩, ?_⟩
    rw [digitAt]
    have hidx : (sel ++ ' ' :: d :: rest)[sel.length + 1]? = some d := by
      rw [hshape, List.getElem?_append_right (by simp)]
      simp
    rw [hidx]
    exact hd

theorem coveredBy_iff (known : List String) (name : String) :
    coveredBy known name = true ↔
      ∃ sel ∈ known,
        stripParen (lowerStr name) = sel ∨
          ∃ (d : Char) (rest : List Char),
            (lowerStr name).data = sel.data ++ ' ' :: d :: rest ∧ isAsciiDigit d = true := by
  rw [coveredBy, List.any_eq_true]
  refine exists_congr fun sel => and_congr_right fun _ => ?_
  rw [Bool.or_eq_true, beq_iff_eq]
  have hlen : sel.length = sel.data.length := rfl
  have hlen2 : (lowerStr name).length = (lowerStr name).data.length := rfl
  rw [hlen, hlen2, prefixDigit_iff sel.data (lowerStr name).data]

/-! ### Shared result type -/

/-- `ChannelSelectorResult`: success flag plus optional failure reason.
The sources return `{ success: true }` on success and
`{ success: false, reason }` on failure. -/
structure ChannelSelectorResult where
  success : Bool
  reason : Option String
deriving DecidableEq, Repr

/-! ### Coordinator: selectChannel (channelSelection.ts lines 175–224)

The coordinator is modelled as a pure function from the profile to the
outcome of the call (a returned result, or a thrown JS error) together
with the trace of externally visible effects it performs, in order: the
image-readiness poll (`page.waitForFunction`, whose timeout is swallowed
by the `try/catch`), the unknown-strategy warning, and the invocation of
a strategy function. -/

/-- The coordinator-relevant fields of `ResolvedSiteProfile`:
`channelSelection.strategy` and `channelSelector`. -/
structure ResolvedSiteProfileM where
  strategy : String
  channelSelector : Option String

/-- Modelled from the spec: the type guard `isChannelSelectionProfile`
lives in src/types (not among the sampled sources). Per the spec a
profile is dispatched only when the selector value is present, and the
coordinator comment says selection is skipped when no channelSelector is
specified, so the guard is selector presence. -/
def isChannelSelectionProfile (profile : ResolvedSiteProfileM) : Bool :=
  profile.channelSelector.isSome

/-- A value stored in the strategy registry, as the JS runtime sees it:
either a callable strategy function, or a plain `ChannelStrategyEntry`
object carrying an `execute` function and a `usesImageSlug` flag. The
coordinator never reads the fields of an entry object, so the model
records only the flag. -/
inductive StrategyValue where
  | fn (behavior : ResolvedSiteProfileM → ChannelSelectorResult)
  | entry (usesImageSlug : Bool)

/-- From tileClick.ts line 203: `tileClickStrategy` is the object
`ChannelStrategyEntry` with `execute: tileClickStrategyFn` and
`usesImageSlug: true` — a plain object, not a function. -/
def tileClickStrategy : StrategyValue := .entry true

/-- Modelled from the spec: tuning/fox.ts is not among the sampled
sources. The spec says every strategy declares an image-slug readiness
flag, and the skip-list comment in selectChannel (line 188) says the
foxGrid selector is a station code, not an image URL slug, so the flag
is false. -/
def foxGridStrategy : StrategyValue := .entry false

/-- Modelled from the spec: tuning/hulu.ts is not among the sampled
sources. The skip-list comment (line 188) says the guideGrid channel
list images are hidden behind a tab, so the flag is false. -/
def guideGridStrategy : StrategyValue := .entry false

/-- Modelled from the spec: tuning/hbo.ts is not among the sampled
sources. The skip-list comment (line 189) says the hboGrid selector is a
channel name, not an image URL slug, so the flag is false. -/
def hboGridStrategy : StrategyValue := .entry false

/-- Modelled from the spec: tuning/sling.ts is not among the sampled
sources. The skip-list comment (line 189) gives slingGrid the same
reason as hboGrid, so the flag is false. -/
def slingGridStrategy : StrategyValue := .entry false

/-- Modelled from the spec: tuning/thumbnailRow.ts is not among the
sampled sources. thumbnailRow is not in the skip list, and per the spec
the strategies outside the skip set are those whose selector value is an
image-URL fragment, so the flag is true. -/
def thumbnailRowStrategy : StrategyValue := .entry true

/-- Modelled from the spec: tuning/youtubeTv.ts is not among the sampled
sources. The skip-list comment (line 189) gives youtubeGrid the same
reason as hboGrid, so the flag is false. -/
def youtubeGridStrategy : StrategyValue := .entry false

/-- The strategy dispatch registry (channelSelection.ts lines 30–39). -/
def strategies : List (String × StrategyValue) :=
  [("foxGrid", foxGridStrategy),
   ("guideGrid", guideGridStrategy),
   ("hboGrid", hboGridStrategy),
   ("slingGrid", slingGridStrategy),
   ("thumbnailRow", thumbnailRowStrategy),
   ("tileClick", tileClickStrategy),
   ("youtubeGrid", youtubeGridStrategy)]

/-- The strategies for which the pre-dispatch image poll is skipped
(channelSelection.ts line 190). -/
def skipImagePolling : List String :=
  ["foxGrid", "guideGrid", "hboGrid", "slingGrid", "youtubeGrid"]

/-- An externally visible effect of a `selectChannel` call. -/
inductive CoordEffect where
  /-- `page.waitForFunction` polling for a loaded image whose src
  contains the slug. -/
  | pollImage (slug : String)
  /-- `LOG.warn` naming an unknown strategy identifier. -/
  | warnUnknownStrategy (strategy : String)
  /-- Invocation of the registered strategy function. -/
  | invoke (strategy : String)
deriving DecidableEq, Repr

/-- The outcome of a JS async call: a value, or a thrown error. -/
inductive JsCallOutcome where
  | result (r : ChannelSelectorResult)
  | thrown (message : String)
deriving DecidableEq, Repr

/-- Embedding of `selectChannel` (channelSelection.ts lines 175–224).
Returns the call outcome and the effect trace. The dispatch step models
the JS call `strategyFn(page, profile)`: a function value is applied and
its result returned verbatim; an object value is not callable, so the
call throws a TypeError. -/
def selectChannel (profile : ResolvedSiteProfileM) :
    JsCallOutcome × List CoordEffect :=
  if profile.strategy == "none" || !isChannelSelectionProfile profile then
    (.result ⟨true, none⟩, [])
  else
    let slug := profile.channelSelector.getD ""
    let pollFx : List CoordEffect :=
      if skipImagePolling.contains profile.strategy then [] else [.pollImage slug]
    match strategies.lookup profile.strategy with
    | none =>
      (.result ⟨false, some "Unknown channel selection strategy."⟩,
        pollFx ++ [.warnUnknownStrategy profile.strategy])
    | some (.fn f) => (.result (f profile), pollFx ++ [.invoke profile.strategy])
    | some (.entry _) => (.thrown "TypeError: strategyFn is not a function", pollFx)

/-- Is the effect a `LOG.warn` about an unknown strategy? -/
def CoordEffect.isWarning : CoordEffect → Bool
  | .warnUnknownStrategy _ => true
  | _ => false

/-- Is the effect a strategy invocation? -/
def CoordEffect.isInvoke : CoordEffect → Bool
  | .invoke _ => true
  | _ => false

/-! ### Tile click strategy (tuning/tileClick.ts)

The strategy's three phases operate on a page model. The Locate phase's
`page.evaluate` callback (lines 41–108) is embedded over an explicit DOM
snapshot: each candidate image records its `src` and rendered bounding
box, and the list of its ancestor elements strictly below
`document.body`, in walk order (parent first). Bounding-box widths and
heights are unaffected by `scrollIntoView`, so each element carries one
width/height pair; the `x`/`y` fields are the position observed by the
`getBoundingClientRect` call made immediately after `scrollIntoView`,
which is the only read whose position the code uses. -/

/-- A click target: viewport coordinates, `ClickTarget` in the sources. -/
structure ClickTarget where
  x : ℚ
  y : ℚ
deriving DecidableEq, Repr

/-- An ancestor element as seen by the Locate walk. -/
structure DomElement where
  /-- `tagName`, uppercase as the DOM reports it. -/
  tag : String
  /-- Whether `getAttribute("role") === "button"`. -/
  roleIsButton : Bool
  /-- Whether `hasAttribute("onclick")` holds. -/
  clickAttr : Bool
  /-- Whether `getComputedStyle(...).cursor === "pointer"`. -/
  cursorIsPointer : Bool
  /-- Bounding-box width (invariant under scrolling). -/
  width : ℚ
  /-- Bounding-box height (invariant under scrolling). -/
  height : ℚ
  /-- Bounding-box x after `scrollIntoView`. -/
  x : ℚ
  /-- Bounding-box y after `scrollIntoView`. -/
  y : ℚ
deriving DecidableEq, Repr

/-- An `img` element candidate of the Locate phase. -/
structure DomImage where
  /-- The image `src` URL. -/
  src : String
  /-- Rendered bounding-box width. -/
  width : ℚ
  /-- Rendered bounding-box height. -/
  height : ℚ
  /-- Ancestors from `parentElement` up to, excluding, `document.body`. -/
  ancestors : List DomElement
deriving DecidableEq, Repr

/-- The semantic-clickable test of the walk (tileClick.ts line 65):
anchor, button, explicit button role, or a native click-handler
attribute. -/
def isSemanticClickable (e : DomElement) : Bool :=
  e.tag == "A" || e.tag == "BUTTON" || e.roleIsButton || e.clickAttr

/-- Center of an element's bounding box, as read after `scrollIntoView`
(lines 69–73 and 96–100). -/
def elementCenter (e : DomElement) : ClickTarget :=
  ⟨e.x + e.width / 2, e.y + e.height / 2⟩

/-- A semantic clickable ancestor whose box has positive area — the
walk returns its center immediately. -/
def semanticTarget (e : DomElement) : Bool :=
  isSemanticClickable e && decide (0 < e.width) && decide (0 < e.height)

/-- An element eligible for the pointer-cursor fallback (line 82):
dimensions above 20×20 and a pointer cursor. -/
def pointerCandidate (e : DomElement) : Bool :=
  decide (20 < e.width) && decide (20 < e.height) && e.cursorIsPointer

/-- The ancestor walk of the Locate phase (lines 57–102): return the
first semantic clickable ancestor with a positive-area box; track the
nearest pointer-cursor candidate as the fallback and use its center only
when the walk ends without a semantic match. -/
def walkAncestors : List DomElement → Option DomElement → Option ClickTarget
  | [], fallback =>
    match fallback with
    | some f =>
      if decide (0 < f.width) && decide (0 < f.height) then some (elementCenter f)
      else none
    | none => none
  | e :: rest, fallback =>
    if semanticTarget e then some (elementCenter e)
    else
      walkAncestors rest
        (if fallback.isNone && pointerCandidate e then some e else fallback)

/-- Does the image match the slug with a rendered box (lines 47–53)? -/
def imageMatches (slug : String) (img : DomImage) : Bool :=
  hasSeg slug.data img.src.data && decide (0 < img.width) && decide (0 < img.height)

/-- The Locate phase (the `page.evaluate` callback, lines 41–108): scan
all images in document order; for each one matching the slug with a
rendered box, run the ancestor walk; return the first click target any
such image yields. -/
def findTile (slug : String) : List DomImage → Option ClickTarget
  | [] => none
  | img :: rest =>
    if imageMatches slug img then
      match walkAncestors img.ancestors none with
      | some t => some t
      | none => findTile slug rest
    else findTile slug rest

/-- Stated from the spec wording, for comparison with `findTile`: the
Locate phase starts from the first image whose source contains the slug
and whose box is positive, and fails if that image's walk yields no
target. -/
def findTileSpec (slug : String) (images : List DomImage) : Option ClickTarget :=
  match images.find? (imageMatches slug) with
  | some img => walkAncestors img.ancestors none
  | none => none

/-- Maximum play-button click attempts (tileClick.ts line 13). -/
def MAX_PLAY_CLICK_ATTEMPTS : Nat := 3

/-- The Confirm phase's view of the play button: `reads i` is the result
of the coordinate re-read of attempt `i` (`null` when the selector no
longer matches or the box is empty), and `hides i` tells whether the
`waitForSelector hidden` verification after attempt `i`'s click succeeds
within its timeout. -/
structure PlayButtonView where
  reads : Nat → Option ClickTarget
  hides : Nat → Bool

/-- The retry loop of the Confirm phase (lines 135–195), with the
remaining iteration count as fuel. Returns the result together with the
number of click+verify cycles performed. -/
def playClickLoop (view : PlayButtonView) : Nat → Nat → ChannelSelectorResult × Nat
  | _, 0 =>
    (⟨false, some ("Play button click did not dismiss the modal after " ++
      toString MAX_PLAY_CLICK_ATTEMPTS ++ " attempts.")⟩, 0)
  | attempt, fuel + 1 =>
    match view.reads attempt with
    | none =>
      if 0 < attempt then (⟨true, none⟩, 0)
      else (⟨false, some "Play button found but has no dimensions."⟩, 0)
    | some _ =>
      if view.hides attempt then (⟨true, none⟩, 1)
      else
        let rest := playClickLoop view (attempt + 1) fuel
        (rest.1, rest.2 + 1)

/-- The Confirm phase's click-and-verify loop entered at attempt 0. -/
def confirmPlayClick (view : PlayButtonView) : ChannelSelectorResult × Nat :=
  playClickLoop view 0 MAX_PLAY_CLICK_ATTEMPTS

/-- The strategy-relevant page state: the DOM snapshot seen by the
Locate evaluate, whether `waitForSelector(playSelector)` finds the play
button within `videoTimeout`, and the Confirm phase's view of it. -/
structure TilePage where
  images : List DomImage
  playButtonAppears : Bool
  playButton : PlayButtonView

/-- The narrowed profile a strategy receives: a non-null
`channelSelector` and the optional `channelSelection.playSelector`. -/
structure ChannelSelectionProfileM where
  channelSelector : String
  playSelector : Option String

/-- Embedding of `tileClickStrategyFn` (tileClick.ts lines 34–201):
Locate the tile (failure: tile not found reason), click it, then, when a
play selector is configured, wait for the play button (failure when it
never appears) and run the Confirm retry loop. The second component
counts play-button click+verify cycles. -/
def tileClickStrategyFn (page : TilePage) (profile : ChannelSelectionProfileM) :
    ChannelSelectorResult × Nat :=
  match findTile profile.channelSelector page.images with
  | none => (⟨false, some "Channel tile not found in page images."⟩, 0)
  | some _ =>
    match profile.playSelector with
    | none => (⟨true, none⟩, 0)
    | some _ =>
      if page.playButtonAppears then confirmPlayClick page.playButton
      else (⟨false, some "Play button did not appear after clicking channel tile."⟩, 0)

theorem walkAncestors_with_fallback (f : DomElement) : ∀ chain : List DomElement,
    walkAncestors chain (some f) =
      match chain.find? semanticTarget with
      | some e => some (elementCenter e)
      | none =>
        if decide (0 < f.width) && decide (0 < f.height) then some (elementCenter f)
        else none := by
  intro chain
  induction chain with
  | nil => rfl
  | cons e rest ih =>
    by_cases he : semanticTarget e = true
    · simp [walkAncestors, he, List.find?_cons_of_pos]
    · simp only [Bool.not_eq_true] at he
      simp [walkAncestors, he, List.find?_cons_of_neg, ih]

theorem walkAncestors_none_eq : ∀ chain : List DomElement,
    walkAncestors chain none =
      match chain.find? semanticTarget with
      | some e => some (elementCenter e)
      | none =>
        match chain.find? pointerCandidate with
        | some f =>
          if decide (0 < f.width) && decide (0 < f.height) then some (elementCenter f)
          else none
        | none => none := by
  intro chain
  induction chain with
  | nil => rfl
  | cons e rest ih =>
    by_cases he : semanticTarget e = true
    · simp [walkAncestors, he, List.find?_cons_of_pos]
    · simp only [Bool.not_eq_true] at he
      by_cases hp : pointerCandidate e = true
      · have hstep : walkAncestors (e :: rest) none = walkAncestors rest (some e) := by
          simp [walkAncestors, he, hp]
        rw [hstep, walkAncestors_with_fallback e rest]
        simp [List.find?_cons_of_neg, List.find?_cons_of_pos, he, hp]
      · simp only [Bool.not_eq_true] at hp
        have hstep : walkAncestors (e :: rest) none = walkAncestors rest none := by
          simp [walkAncestors, he, hp]
        rw [hstep, ih]
        simp [List.find?_cons_of_neg, he, hp]

theorem findTile_eq_findSome (slug : String) : ∀ images : List DomImage,
    findTile slug images =
      images.findSome? fun img =>
        if imageMatches slug img then walkAncestors img.ancestors none else none := by
  intro images
  induction images with
  | nil => rfl
  | cons img rest ih =>
    by_cases hm : imageMatches slug img = true
    · cases hw : walkAncestors img.ancestors none with
      | none => simp [findTile, hm, hw, List.findSome?_cons, ih]
      | some t => simp [findTile, hm, hw, List.findSome?_cons]
    · simp only [Bool.not_eq_true] at hm
      simp [findTile, hm, List.findSome?_cons, ih]

/-! #### Step equations of the Confirm retry loop -/

theorem playClickLoop_step (v : PlayButtonView) (a f : Nat) :
    playClickLoop v a (f + 1) =
      match v.reads a with
      | none =>
        if 0 < a then (⟨true, none⟩, 0)
        else (⟨false, some "Play button found but has no dimensions."⟩, 0)
      | some _ =>
        if v.hides a then (⟨true, none⟩, 1)
        else ((playClickLoop v (a + 1) f).1, (playClickLoop v (a + 1) f).2 + 1) := rfl

theorem playClickLoop_exhaust (v : PlayButtonView) (a : Nat) :
    playClickLoop v a 0 =
      (⟨false, some ("Play button click did not dismiss the modal after " ++
        toString MAX_PLAY_CLICK_ATTEMPTS ++ " attempts.")⟩, 0) := rfl

theorem confirmPlayClick_start (v : PlayButtonView) :
    confirmPlayClick v =
      match v.reads 0 with
      | none => (⟨false, some "Play button found but has no dimensions."⟩, 0)
      | some _ =>
        if v.hides 0 then (⟨true, none⟩, 1)
        else ((playClickLoop v 1 2).1, (playClickLoop v 1 2).2 + 1) := rfl

theorem playClickLoop_one (v : PlayButtonView) :
    playClickLoop v 1 2 =
      match v.reads 1 with
      | none => (⟨true, none⟩, 0)
      | some _ =>
        if v.hides 1 then (⟨true, none⟩, 1)
        else ((playClickLoop v 2 1).1, (playClickLoop v 2 1).2 + 1) := rfl

theorem playClickLoop_two (v : PlayButtonView) :
    playClickLoop v 2 1 =
      match v.reads 2 with
      | none => (⟨true, none⟩, 0)
      | some _ =>
        if v.hides 2 then (⟨true, none⟩, 1)
        else ((playClickLoop v 3 0).1, (playClickLoop v 3 0).2 + 1) := rfl

theorem playClickLoop_count_le (v : PlayButtonView) :
    ∀ (fuel a : Nat), (playClickLoop v a fuel).2 ≤ fuel := by
  intro fuel
  induction fuel with
  | zero =>
    intro a
    rw [playClickLoop_exhaust]
  | succ f ih =>
    intro a
    rw [playClickLoop_step]
    cases h : v.reads a with
    | none =>
      by_cases ha : 0 < a
      · simp [ha]
      · simp [ha]
    | some t =>
      by_cases hh : v.hides a = true
      · simp [hh]
      · simp only [hh, Bool.false_eq_true, if_false]
        have := ih (a + 1)
        omega

/-! ### Concrete Locate scenario used for claim C9 -/

/-- A large, non-semantic, non-pointer ancestor: the walk yields nothing
from it. -/
def plainDiv : DomElement := ⟨"DIV", false, false, false, 100, 100, 0, 0⟩

/-- An anchor ancestor with a positive-area box. -/
def anchorTile : DomElement := ⟨"A", false, false, false, 100, 50, 10, 20⟩

/-- A slug-matching, rendered image whose ancestor walk yields no
target. -/
def imgNoTarget : DomImage :=
  ⟨"https://cdn.example/poster_espn_a.png", 30, 30, [plainDiv]⟩

/-- A slug-matching, rendered image wrapped in a clickable anchor. -/
def imgWithAnchor : DomImage :=
  ⟨"https://cdn.example/poster_espn_b.png", 30, 30, [anchorTile]⟩

/-! ### Claims -/

/-- C1: the claim says every `selectChannel` call terminates in a
Selector Result with no exception crossing the boundary, including for
registered identifiers such as tileClick. The code violates this:
`strategies` maps "tileClick" to the `ChannelStrategyEntry` object
exported at tileClick.ts line 203, and `selectChannel` line 221 calls
that value as a function, which throws a TypeError in JS (and
contradicts the registry's own `Record of ChannelStrategyFn` type
annotation at line 30). This theorem evaluates the embedded code at the
failing input: the call throws after the image poll instead of returning
a result. -/
theorem selectChannel_tileClick_dispatch_throws (slug : String) :
    selectChannel ⟨"tileClick", some slug⟩ =
      (.thrown "TypeError: strategyFn is not a function", [.pollImage slug]) := rfl

/-- C2: for every registered strategy, the pre-dispatch image-readiness
poll is performed exactly when the strategy's `usesImageSlug` metadata
flag is true, and the strategies in the fixed skip list are never
polled. -/
theorem selectChannel_polls_iff_image_slug_flag :
    (∀ (s slug : String) (flag : Bool),
      strategies.lookup s = some (.entry flag) →
      (CoordEffect.pollImage slug ∈ (selectChannel ⟨s, some slug⟩).2 ↔ flag = true)) ∧
    (∀ s slug : String, s ∈ skipImagePolling →
      CoordEffect.pollImage slug ∉ (selectChannel ⟨s, some slug⟩).2) := by
  constructor
  · intro s slug flag h
    by_cases h1 : s = "foxGrid"
    · subst h1
      rw [show strategies.lookup "foxGrid" = some (.entry false) from rfl] at h
      injection h with h
      injection h with h
      subst h
      rw [show (selectChannel ⟨"foxGrid", some slug⟩).2 = [] from rfl]
      simp
    · by_cases h2 : s = "guideGrid"
      · subst h2
        rw [show strategies.lookup "guideGrid" = some (.entry false) from rfl] at h
        injection h with h
        injection h with h
        subst h
        rw [show (selectChannel ⟨"guideGrid", some slug⟩).2 = [] from rfl]
        simp
      · by_cases h3 : s = "hboGrid"
        · subst h3
          rw [show strategies.lookup "hboGrid" = some (.entry false) from rfl] at h
          injection h with h
          injection h with h
          subst h
          rw [show (selectChannel ⟨"hboGrid", some slug⟩).2 = [] from rfl]
          simp
        · by_cases h4 : s = "slingGrid"
          · subst h4
            rw [show strategies.lookup "slingGrid" = some (.entry false) from rfl] at h
            injection h with h
            injection h with h
            subst h
            rw [show (selectChannel ⟨"slingGrid", some slug⟩).2 = [] from rfl]
            simp
          · by_cases h5 : s = "thumbnailRow"
            · subst h5
              rw [show strategies.lookup "thumbnailRow" = some (.entry true) from rfl] at h
              injection h with h
              injection h with h
              subst h
              rw [show (selectChannel ⟨"thumbnailRow", some slug⟩).2 =
                [CoordEffect.pollImage slug] from rfl]
              simp
            · by_cases h6 : s = "tileClick"
              · subst h6
                rw [show strategies.lookup "tileClick" = some (.entry true) from rfl] at h
                injection h with h
                injection h with h
                subst h
                rw [show (selectChannel ⟨"tileClick", some slug⟩).2 =
                  [CoordEffect.pollImage slug] from rfl]
                simp
              · by_cases h7 : s = "youtubeGrid"
                · subst h7
                  rw [show strategies.lookup "youtubeGrid" = some (.entry false) from rfl] at h
                  injection h with h
                  injection h with h
                  subst h
                  rw [show (selectChannel ⟨"youtubeGrid", some slug⟩).2 = [] from rfl]
                  simp
                · exfalso
                  have e1 : (s == "foxGrid") = false := by simp [h1]
                  have e2 : (s == "guideGrid") = false := by simp [h2]
                  have e3 : (s == "hboGrid") = false := by simp [h3]
                  have e4 : (s == "slingGrid") = false := by simp [h4]
                  have e5 : (s == "thumbnailRow") = false := by simp [h5]
                  have e6 : (s == "tileClick") = false := by simp [h6]
                  have e7 : (s == "youtubeGrid") = false := by simp [h7]
                  have hnone : strategies.lookup s = none := by
                    simp [strategies, List.lookup, e1, e2, e3, e4, e5, e6, e7]
                  rw [hnone] at h
                  exact Option.noConfusion h
  · intro s slug hs
    fin_cases hs
    · rw [show (selectChannel ⟨"foxGrid", some slug⟩).2 = [] from rfl]
      simp
    · rw [show (selectChannel ⟨"guideGrid", some slug⟩).2 = [] from rfl]
      simp
    · rw [show (selectChannel ⟨"hboGrid", some slug⟩).2 = [] from rfl]
      simp
    · rw [show (selectChannel ⟨"slingGrid", some slug⟩).2 = [] from rfl]
      simp
    · rw [show (selectChannel ⟨"youtubeGrid", some slug⟩).2 = [] from rfl]
      simp

/-- Witness for C2 at concrete inputs: tileClick declares the flag and
is polled; foxGrid is in the skip set and is not. -/
theorem selectChannel_polls_iff_image_slug_flag_witness :
    (CoordEffect.pollImage "espn" ∈ (selectChannel ⟨"tileClick", some "espn"⟩).2 ↔
      true = true) ∧
    CoordEffect.pollImage "espn" ∉ (selectChannel ⟨"foxGrid", some "espn"⟩).2 :=
  ⟨selectChannel_polls_iff_image_slug_flag.1 "tileClick" "espn" true rfl,
    selectChannel_polls_iff_image_slug_flag.2 "foxGrid" "espn" (by decide)⟩

/-- C5: when the profile strategy is the no-op value "none" or the
profile has no channel selector, `selectChannel` returns success with an
empty effect trace: no page poll, no strategy invocation, nothing. -/
theorem selectChannel_noop_success (p : ResolvedSiteProfileM)
    (h : p.strategy = "none" ∨ p.channelSelector = none) :
    selectChannel p = (.result ⟨true, none⟩, []) := by
  rcases h with h | h
  · rw [selectChannel, if_pos]
    simp [h]
  · rw [selectChannel, if_pos]
    simp [isChannelSelectionProfile, h]

/-- Witness for C5: the no-op strategy with a selector present. -/
theorem selectChannel_noop_success_witness :
    selectChannel ⟨"none", some "espn"⟩ = (.result ⟨true, none⟩, []) :=
  selectChannel_noop_success ⟨"none", some "espn"⟩ (Or.inl rfl)

/-- C6: a strategy identifier absent from the registry, reached at
dispatch, yields a failure result whose reason mentions the unknown
strategy (case-insensitively containing "unknown" and "strategy"),
produces exactly one warning naming the identifier, and never invokes
any strategy. -/
theorem selectChannel_unknown_strategy_warns (p : ResolvedSiteProfileM)
    (hlook : strategies.lookup p.strategy = none)
    (hname : p.strategy ≠ "none") (hsel : p.channelSelector.isSome = true) :
    (selectChannel p).1 = .result ⟨false, some "Unknown channel selection strategy."⟩ ∧
    (∃ r, (selectChannel p).1 = .result ⟨false, some r⟩ ∧
      hasSegStr "unknown" (lowerStr r) = true ∧ hasSegStr "strategy" (lowerStr r) = true) ∧
    (selectChannel p).2.filter CoordEffect.isWarning =
      [.warnUnknownStrategy p.strategy] ∧
    (selectChannel p).2.all (fun e => !e.isInvoke) = true := by
  have hguard : ¬((p.strategy == "none" || !isChannelSelectionProfile p) = true) := by
    simp [isChannelSelectionProfile, hsel, hname]
  have hmain : selectChannel p =
      (.result ⟨false, some "Unknown channel selection strategy."⟩,
        (if skipImagePolling.contains p.strategy then ([] : List CoordEffect)
         else [.pollImage (p.channelSelector.getD "")]) ++
          [.warnUnknownStrategy p.strategy]) := by
    rw [selectChannel, if_neg hguard]
    simp only [hlook]
  rw [hmain]
  by_cases hskip : skipImagePolling.contains p.strategy = true
  · refine ⟨rfl, ⟨"Unknown channel selection strategy.", rfl, by decide, by decide⟩, ?_, ?_⟩
    · simp [hskip, CoordEffect.isWarning]
    · simp [hskip, CoordEffect.isInvoke]
  · simp only [Bool.not_eq_true] at hskip
    refine ⟨rfl, ⟨"Unknown channel selection strategy.", rfl, by decide, by decide⟩, ?_, ?_⟩
    · simp [hskip, CoordEffect.isWarning]
    · simp [hskip, CoordEffect.isInvoke]

/-- Witness for C6: an identifier not present in the registry. -/
theorem selectChannel_unknown_strategy_warns_witness :
    (selectChannel ⟨"bogusGrid", some "espn"⟩).1 =
      .result ⟨false, some "Unknown channel selection strategy."⟩ ∧
    (selectChannel ⟨"bogusGrid", some "espn"⟩).2.filter CoordEffect.isWarning =
      [.warnUnknownStrategy "bogusGrid"] :=
  ⟨(selectChannel_unknown_strategy_warns ⟨"bogusGrid", some "espn"⟩ rfl
      (by decide) rfl).1,
    (selectChannel_unknown_strategy_warns ⟨"bogusGrid", some "espn"⟩ rfl
      (by decide) rfl).2.2.1⟩

/-- C3: the Confirm click-and-verify loop performs at most 3
click+verify cycles on any run; and when the confirmation element yields
fresh coordinates on every read and never disappears after a click, the
call fails after exactly 3 cycles, with the attempt count (3) in the
reason. -/
theorem tile_confirm_retry_three_attempts :
    (∀ v : PlayButtonView, (confirmPlayClick v).2 ≤ MAX_PLAY_CLICK_ATTEMPTS) ∧
    (∀ v : PlayButtonView,
      (∀ i, (v.reads i).isSome = true) → (∀ i, v.hides i = false) →
      confirmPlayClick v =
        (⟨false, some "Play button click did not dismiss the modal after 3 attempts."⟩, 3) ∧
      hasSegStr "3" "Play button click did not dismiss the modal after 3 attempts." = true) := by
  constructor
  · intro v
    exact playClickLoop_count_le v MAX_PLAY_CLICK_ATTEMPTS 0
  · intro v hreads hhides
    obtain ⟨t0, h0⟩ := Option.isSome_iff_exists.mp (hreads 0)
    obtain ⟨t1, h1⟩ := Option.isSome_iff_exists.mp (hreads 1)
    obtain ⟨t2, h2⟩ := Option.isSome_iff_exists.mp (hreads 2)
    refine ⟨?_, by decide⟩
    rw [confirmPlayClick_start, h0]
    simp only [hhides 0, Bool.false_eq_true, if_false]
    rw [playClickLoop_one, h1]
    simp only [hhides 1, Bool.false_eq_true, if_false]
    rw [playClickLoop_two, h2]
    simp only [hhides 2, Bool.false_eq_true, if_false]
    rw [playClickLoop_exhaust]
    rfl

/-- Witness for C3: a confirmation element that always yields
coordinates and never hides. -/
theorem tile_confirm_retry_three_attempts_witness :
    confirmPlayClick ⟨fun _ => some ⟨1, 2⟩, fun _ => false⟩ =
      (⟨false, some "Play button click did not dismiss the modal after 3 attempts."⟩, 3) :=
  (tile_confirm_retry_three_attempts.2 ⟨fun _ => some ⟨1, 2⟩, fun _ => false⟩
    (fun _ => rfl) (fun _ => rfl)).1

/-- C4: in the Confirm phase, a coordinate read that returns nothing on
the very first attempt yields failure with the found-but-no-dimensions
reason; a read that returns nothing on a later attempt (after earlier
attempts read coordinates and saw no disappearance) yields success. -/
theorem tile_confirm_vanish_heuristic :
    (∀ v : PlayButtonView, v.reads 0 = none →
      confirmPlayClick v = (⟨false, some "Play button found but has no dimensions."⟩, 0) ∧
      hasSegStr "found but has no dimensions"
        "Play button found but has no dimensions." = true) ∧
    (∀ (v : PlayButtonView) (i : Nat), 0 < i → i < MAX_PLAY_CLICK_ATTEMPTS →
      (∀ j, j < i → (v.reads j).isSome = true ∧ v.hides j = false) →
      v.reads i = none →
      (confirmPlayClick v).1 = ⟨true, none⟩) := by
  constructor
  · intro v h
    refine ⟨?_, by decide⟩
    rw [confirmPlayClick_start, h]
  · intro v i hpos hlt hprev hi
    have hmax : MAX_PLAY_CLICK_ATTEMPTS = 3 := rfl
    rw [hmax] at hlt
    interval_cases i
    · obtain ⟨t0, h0⟩ := Option.isSome_iff_exists.mp (hprev 0 (by omega)).1
      rw [confirmPlayClick_start, h0]
      simp only [(hprev 0 (by omega)).2, Bool.false_eq_true, if_false]
      rw [playClickLoop_one, hi]
    · obtain ⟨t0, h0⟩ := Option.isSome_iff_exists.mp (hprev 0 (by omega)).1
      obtain ⟨t1, h1⟩ := Option.isSome_iff_exists.mp (hprev 1 (by omega)).1
      rw [confirmPlayClick_start, h0]
      simp only [(hprev 0 (by omega)).2, Bool.false_eq_true, if_false]
      rw [playClickLoop_one, h1]
      simp only [(hprev 1 (by omega)).2, Bool.false_eq_true, if_false]
      rw [playClickLoop_two, hi]

/-- Witness for C4: a run whose first read yields nothing, and a run
whose second read yields nothing after a normal first attempt. -/
theorem tile_confirm_vanish_heuristic_witness :
    confirmPlayClick ⟨fun _ => none, fun _ => false⟩ =
      (⟨false, some "Play button found but has no dimensions."⟩, 0) ∧
    (confirmPlayClick
      ⟨fun j => if j = 0 then some ⟨1, 2⟩ else none, fun _ => false⟩).1 =
      ⟨true, none⟩ := by
  constructor
  · exact (tile_confirm_vanish_heuristic.1 ⟨fun _ => none, fun _ => false⟩ rfl).1
  · refine tile_confirm_vanish_heuristic.2
      ⟨fun j => if j = 0 then some ⟨1, 2⟩ else none, fun _ => false⟩ 1
      (by decide) (by decide) ?_ rfl
    intro j hj
    interval_cases j
    exact ⟨rfl, rfl⟩

/-- C7: in filtered mode a discovered name is excluded iff,
case-insensitively, its parenthetical-stripped form equals a known
selector or it starts with a known selector, one space, and an ASCII
digit; on the spec's concrete example only "ESPN News" survives. -/
theorem logAvailableChannels_preset_coverage :
    (∀ (known : List String) (name : String),
      coveredBy known name = true ↔
        ∃ sel ∈ known,
          stripParen (lowerStr name) = sel ∨
            ∃ (d : Char) (rest : List Char),
              (lowerStr name).data = sel.data ++ ' ' :: d :: rest ∧
                isAsciiDigit d = true) ∧
    filteredChannels ["espn"] ["ESPN", "ESPN 2", "ESPN News", "ESPN (West)"] =
      ["ESPN News"] ∧
    logAvailableChannels ["ESPN", "ESPN 2", "ESPN News", "ESPN (West)"]
      (some "-yttv") [("espn-yttv", some "espn")] [] = some ["ESPN News"] :=
  ⟨coveredBy_iff, by decide, by decide⟩

/-- C8: normalization is idempotent on every string, and maps the
double-trailing-space, plain, and trailing-NBSP variants of "WLS" to
"wls". -/
theorem normalizeChannelName_idempotent_and_examples :
    (∀ s : String,
      normalizeChannelName (normalizeChannelName s) = normalizeChannelName s) ∧
    normalizeChannelName "WLS  " = "wls" ∧
    normalizeChannelName "WLS" = "wls" ∧
    normalizeChannelName "wls\u00A0" = "wls" :=
  ⟨normalizeChannelName_idem_aux, by decide, by decide, by decide⟩

/-- C9 counterexample: the claim says Locate starts from the first
matching rendered image and fails when its ancestor walk yields no
target. In the code (tileClick.ts lines 45–105) the image loop continues
to later matching images: here the first matching image's walk fails,
the spec-worded locate (`findTileSpec`) yields nothing, yet `findTile`
returns the anchor center found under the second matching image. -/
theorem tile_locate_not_first_image_only :
    List.find? (imageMatches "espn") [imgNoTarget, imgWithAnchor] = some imgNoTarget ∧
    walkAncestors imgNoTarget.ancestors none = none ∧
    findTileSpec "espn" [imgNoTarget, imgWithAnchor] = none ∧
    findTile "espn" [imgNoTarget, imgWithAnchor] = some (elementCenter anchorTile) ∧
    elementCenter anchorTile = ⟨60, 45⟩ := by
  refine ⟨rfl, rfl, rfl, rfl, ?_⟩
  simp only [elementCenter, anchorTile, ClickTarget.mk.injEq]
  norm_num

/-- C9 (amended): Locate scans all slug-matching rendered images in
document order and returns the first target any of their walks yields;
each walk returns the center of the first semantic clickable ancestor
with a positive-area box, falling back to the nearest tracked
pointer-cursor ancestor only when no semantic ancestor matches; when no
matching image yields a target the strategy fails with the tile
not-found reason. -/
theorem tileLocate_amended (slug : String) (images : List DomImage) :
    findTile slug images =
      (images.findSome? fun img =>
        if imageMatches slug img then walkAncestors img.ancestors none else none) ∧
    (∀ img ∈ images,
      walkAncestors img.ancestors none =
        match img.ancestors.find? semanticTarget with
        | some e => some (elementCenter e)
        | none =>
          match img.ancestors.find? pointerCandidate with
          | some f =>
            if decide (0 < f.width) && decide (0 < f.height) then
              some (elementCenter f)
            else none
          | none => none) ∧
    (∀ (page : TilePage) (profile : ChannelSelectionProfileM),
      page.images = images → profile.channelSelector = slug →
      findTile slug images = none →
      tileClickStrategyFn page profile =
        (⟨false, some "Channel tile not found in page images."⟩, 0)) ∧
    hasSegStr "tile not found" "Channel tile not found in page images." = true := by
  refine ⟨findTile_eq_findSome slug images,
    fun img _ => walkAncestors_none_eq img.ancestors, ?_, by decide⟩
  intro page profile hpage hsel hnone
  rw [tileClickStrategyFn, hsel, hpage, hnone]

/-- Witness for C9 (amended), at the concrete scenario: the
characterization evaluates on the walk of `imgNoTarget`, and a page
whose only matching image yields no target produces the tile not-found
failure. -/
theorem tileLocate_amended_witness :
    walkAncestors imgNoTarget.ancestors none =
      (match imgNoTarget.ancestors.find? semanticTarget with
       | some e => some (elementCenter e)
       | none =>
         match imgNoTarget.ancestors.find? pointerCandidate with
         | some f =>
           if decide (0 < f.width) && decide (0 < f.height) then
             some (elementCenter f)
           else none
         | none => none) ∧
    tileClickStrategyFn ⟨[imgNoTarget], true, ⟨fun _ => none, fun _ => false⟩⟩
      ⟨"espn", none⟩ =
      (⟨false, some "Channel tile not found in page images."⟩, 0) := by
  constructor
  · exact (tileLocate_amended "espn" [imgNoTarget]).2.1 imgNoTarget (by simp)
  · exact (tileLocate_amended "espn" [imgNoTarget]).2.2.1
      ⟨[imgNoTarget], true, ⟨fun _ => none, fun _ => false⟩⟩ ⟨"espn", none⟩
      rfl rfl rfl

theorem knownSelectorsOf_skip_empty (suf : String)
    (pre post : List (String × Option String)) (key : String)
    (sel : Option String) (extra : List String) (h : sel = none ∨ sel = some "") :
    knownSelectorsOf suf (pre ++ (key, sel) :: post) extra =
      knownSelectorsOf suf (pre ++ post) extra := by
  have hq : (decide (0 < (lowerStr (sel.getD "")).length)) = false := by
    rcases h with rfl | rfl <;> rfl
  by_cases hk : strEndsWith suf key = true
  · simp [knownSelectorsOf, List.filter_append, List.filter_cons, hk, hq]
  · simp only [Bool.not_eq_true] at hk
    simp [knownSelectorsOf, List.filter_append, List.filter_cons, hk]

/-- C10: a preset channel with an absent or empty channelSelector never
covers any discovered name (removing it from the preset table leaves the
log output unchanged); coverage depends only on the lowercased form of
the discovered name; and the logged names are a sublist of the
discovered list, so their original case is preserved. -/
theorem logAvailableChannels_empty_selector_and_case :
    (∀ (suf : String) (pre post : List (String × Option String)) (key : String)
        (sel : Option String) (extra avail : List String),
      (sel = none ∨ sel = some "") →
      logAvailableChannels avail (some suf) (pre ++ (key, sel) :: post) extra =
        logAvailableChannels avail (some suf) (pre ++ post) extra) ∧
    (∀ (known : List String) (a b : String), lowerStr a = lowerStr b →
      coveredBy known a = coveredBy known b) ∧
    (∀ known avail : List String,
      List.Sublist (filteredChannels known avail) avail) := by
  refine ⟨?_, ?_, ?_⟩
  · intro suf pre post key sel extra avail h
    rw [logAvailableChannels, logAvailableChannels,
      knownSelectorsOf_skip_empty suf pre post key sel extra h]
  · intro known a b h
    rw [coveredBy, coveredBy, h]
  · intro known avail
    exact List.filter_sublist avail

/-- Witness for C10: dropping a suffix-matching preset with an absent
selector leaves the output unchanged, and coverage agrees on two
casings of the same name. -/
theorem logAvailableChannels_empty_selector_and_case_witness :
    logAvailableChannels ["ESPN"] (some "-yttv") [("x-yttv", none)] [] =
      logAvailableChannels ["ESPN"] (some "-yttv") [] [] ∧
    coveredBy ["espn"] "ESPN" = coveredBy ["espn"] "Espn" :=
  ⟨logAvailableChannels_empty_selector_and_case.1 "-yttv" [] [] "x-yttv" none []
      ["ESPN"] (Or.inl rfl),
    logAvailableChannels_empty_selector_and_case.2.1 ["espn"] "ESPN" "Espn"
      (by decide)⟩

end Prismcast
